import Mathlib

/-!
Formal model of the SPOS scheduler core (SPOS/SPOS of the psp_pipeline
repository): memory-layout constants from defines.h and
atmega644constants.h, the process data model from os_process.h, the
context save and restore sequences from util.h, timer initialization
from os_core.c, and the autostart registry from os_process.h.
The bodies of os_exec and os_getStackChecksum are build-error stubs in
os_scheduler.c, so those operations are modelled from the specification
(and checked against the expectations of the test tasks in tests/v2).
-/

/-! ## Constants from atmega644constants.h and defines.h -/

/-- RAMSTART of the ATmega644 (0x100), from the AVR io headers. -/
def RAMSTART : Nat := 256

/-- RAMEND of the ATmega644 (0x10FF), from the AVR io headers. -/
def RAMEND : Nat := 4351

/-- AVR_SRAM_START from atmega644constants.h. -/
def AVR_SRAM_START : Nat := RAMSTART

/-- AVR_SRAM_END from atmega644constants.h: first invalid address. -/
def AVR_SRAM_END : Nat := RAMEND + 1

/-- AVR_SRAM_LAST from atmega644constants.h: last valid address. -/
def AVR_SRAM_LAST : Nat := RAMEND

/-- AVR_MEMORY_SRAM from atmega644constants.h. -/
def AVR_MEMORY_SRAM : Nat := AVR_SRAM_END - AVR_SRAM_START

/-- MAX_NUMBER_OF_PROCESSES from defines.h. -/
def MAX_NUMBER_OF_PROCESSES : Nat := 8

/-- DEFAULT_PRIORITY from defines.h. -/
def DEFAULT_PRIORITY : Nat := 2

/-- INVALID_PROCESS from defines.h. -/
def INVALID_PROCESS : Nat := 255

/-- STACK_SIZE_MAIN from defines.h. -/
def STACK_SIZE_MAIN : Nat := 32

/-- STACK_SIZE_ISR from defines.h. -/
def STACK_SIZE_ISR : Nat := 192

/-- STACK_SIZE_PROC from defines.h. -/
def STACK_SIZE_PROC : Nat :=
  ((AVR_MEMORY_SRAM / 2) - STACK_SIZE_MAIN - STACK_SIZE_ISR) / MAX_NUMBER_OF_PROCESSES

/-- BOTTOM_OF_MAIN_STACK from defines.h. -/
def BOTTOM_OF_MAIN_STACK : Nat := AVR_SRAM_LAST

/-- BOTTOM_OF_ISR_STACK from defines.h. -/
def BOTTOM_OF_ISR_STACK : Nat := BOTTOM_OF_MAIN_STACK - STACK_SIZE_MAIN

/-- BOTTOM_OF_PROCS_STACK from defines.h. -/
def BOTTOM_OF_PROCS_STACK : Nat := BOTTOM_OF_ISR_STACK - STACK_SIZE_ISR

/-- PROCESS_STACK_BOTTOM from defines.h. -/
def PROCESS_STACK_BOTTOM (pid : Nat) : Nat := BOTTOM_OF_PROCS_STACK - pid * STACK_SIZE_PROC

/-! ## Process data model (os_process.h) -/

/-- ProcessState from os_process.h. -/
inductive ProcessState where
  | OS_PS_UNUSED
  | OS_PS_READY
  | OS_PS_RUNNING
  | OS_PS_BLOCKED
deriving DecidableEq, Repr

/-- Modelled from the spec: the Process record of section 3 (the field list
of the struct in os_process.h is a build-error stub; the fields below are
the ones the spec and the unit tests use). The program entry point and the
stack pointer are 16-bit values modelled as Nat; a null program pointer is
the value 0. -/
structure Process where
  state : ProcessState
  program : Nat
  priority : Nat
  sp : Nat
  checksum : Nat
deriving DecidableEq, Repr

/-- Pointwise update of a function, used for the process table, SRAM
bytes and the register file. -/
def upd {α : Type} (f : Nat → α) (a : Nat) (v : α) : Nat → α :=
  fun x => if x = a then v else f x

/-- Modelled from the spec: the scheduler owns the process table
(os_processes array of os_scheduler.c, a build-error stub) and we bundle
the SRAM byte contents with it so that stack-frame writes are explicit. -/
structure SchedulerState where
  os_processes : Nat → Process
  mem : Nat → Nat

/-- Modelled from the spec: the scan of section 4.5 step 3, a loop over
slot ids in increasing order looking for the first Unused slot; fuel is
the number of slots left to inspect. -/
def scanFrom (tbl : Nat → Process) : Nat → Nat → Option Nat
  | _, 0 => none
  | i, Nat.succ fuel =>
    if (tbl i).state = ProcessState.OS_PS_UNUSED then some i else scanFrom tbl (i + 1) fuel

/-- Modelled from the spec: the initial stack frame of section 3, laid
down by os_exec (a build-error stub in os_scheduler.c). The bottom byte
holds the low byte of the entry point, the byte above it the high byte,
and above that lie 33 zero bytes, one per general register plus one for
the status byte. -/
def layDownFrame (mem : Nat → Nat) (bottom entry : Nat) : Nat → Nat :=
  fun a =>
    if a = bottom then entry % 256
    else if a = bottom - 1 then entry / 256 % 256
    else if bottom - 34 ≤ a ∧ a ≤ bottom - 2 then 0
    else mem a

/-- Modelled from the spec: the checksum accumulation loop of
os_getStackChecksum (a build-error stub in os_scheduler.c), XORing one
byte after the other into a running one-byte accumulator, starting at
the given address and walking towards the stack bottom. The plain XOR
step (with no rotation between bytes) is pinned down by the test task
"6 Stack Consistency", which demands that flipping the same bit position
in two different bytes of the live region goes undetected. -/
def checksumLoop (mem : Nat → Nat) : Nat → Nat → Nat → Nat
  | acc, _, 0 => acc
  | acc, a, Nat.succ n => checksumLoop mem (acc ^^^ mem a % 256) (a + 1) n

/-- Modelled from the spec: os_getStackChecksum (a build-error stub in
os_scheduler.c) folds the bytes from sp+1 up to the bottom of the stack
region of the process. -/
def os_getStackChecksum (s : SchedulerState) (pid : Nat) : Nat :=
  checksumLoop s.mem 0 ((s.os_processes pid).sp + 1)
    (PROCESS_STACK_BOTTOM pid - (s.os_processes pid).sp)

/-- Modelled from the spec: os_exec (a build-error stub in
os_scheduler.c), following section 4.5: reject a null program pointer,
scan for the lowest Unused slot, fill the slot, lay down the initial
stack frame, seed the checksum, and return the chosen slot id. -/
def os_exec (program priority : Nat) (s : SchedulerState) : Nat × SchedulerState :=
  if program = 0 then (INVALID_PROCESS, s)
  else
    match scanFrom s.os_processes 0 MAX_NUMBER_OF_PROCESSES with
    | none => (INVALID_PROCESS, s)
    | some pid =>
      let bottom := PROCESS_STACK_BOTTOM pid
      let sp := bottom - 35
      let mem2 := layDownFrame s.mem bottom program
      let proc : Process :=
        { state := ProcessState.OS_PS_READY
          program := program
          priority := priority
          sp := sp
          checksum := checksumLoop mem2 0 (sp + 1) (bottom - sp) }
      (pid, { os_processes := upd s.os_processes pid proc, mem := mem2 })

/-! ## Specification-side byte folds, for comparison with the model -/

/-- Rotate a byte left by one bit. -/
def rotl8 (x : Nat) : Nat := (x * 2 + x / 128) % 256

/-- The plain XOR fold over a list of bytes. -/
def xorFold (bs : List Nat) : Nat := bs.foldl (fun acc b => acc ^^^ b % 256) 0

/-- The fold described by the spec text of section 4.3: XOR each byte
into the accumulator and rotate the accumulator left by one bit between
bytes. -/
def rotateFold (bs : List Nat) : Nat := bs.foldl (fun acc b => rotl8 acc ^^^ b % 256) 0

/-- The live stack bytes of a process: the bytes at addresses sp+1 up to
bottom, in increasing address order. -/
def stackBytes (mem : Nat → Nat) (sp bottom : Nat) : List Nat :=
  (List.range (bottom - sp)).map (fun i => mem (sp + 1 + i))

/-! ## Machine model for the context switch macros (util.h) -/

/-- An AVR machine state as far as saveContext and restoreContext touch
it: the 32 general registers r0..r31, the status register SREG (the
interrupt-enable flag is bit 7), the stack pointer, and the SRAM bytes.
Registers and memory cells hold bytes; the context sequences only move
them, so no arithmetic truncation arises. -/
structure Machine where
  regs : Nat → Nat
  sreg : Nat
  sp : Nat
  smem : Nat → Nat

/-- An AVR push: store the byte at the address in SP, then decrement SP. -/
def push (m : Machine) (b : Nat) : Machine :=
  { m with smem := upd m.smem m.sp b, sp := m.sp - 1 }

/-- Push the named registers one after the other (push r, for r drawn
from the list in order). -/
def pushSeq (m : Machine) : List Nat → Machine
  | [] => m
  | r :: rs => pushSeq (push m (m.regs r)) rs

/-- An AVR pop into a register: increment SP, then load the byte at the
address in SP. -/
def popReg (m : Machine) (r : Nat) : Machine :=
  { m with sp := m.sp + 1, regs := upd m.regs r (m.smem (m.sp + 1)) }

/-- Pop into the named registers one after the other. -/
def popSeq (m : Machine) : List Nat → Machine
  | [] => m
  | r :: rs => popSeq (popReg m r) rs

/-- The registers pushed by saveContext between the status byte and the
final push of r0: r30 down to r1, in this order (util.h lines 81-110). -/
def saveRegList : List Nat :=
  [30, 29, 28, 27, 26, 25, 24, 23, 22, 21, 20, 19, 18, 17, 16,
   15, 14, 13, 12, 11, 10, 9, 8, 7, 6, 5, 4, 3, 2, 1]

/-- The registers popped by restoreContext before the status byte:
r0 up to r30, in this order (util.h lines 126-156). -/
def restoreRegList : List Nat :=
  [0, 1, 2, 3, 4, 5, 6, 7, 8, 9, 10, 11, 12, 13, 14, 15,
   16, 17, 18, 19, 20, 21, 22, 23, 24, 25, 26, 27, 28, 29, 30]

/-- The saveContext sequence of util.h: push r31; read SREG into r31;
cli (clear the interrupt-enable bit, bit 7); push r31 (now holding the
SREG value captured before cli); push r30 down to r1; clr r1; push r0. -/
def saveContext (m : Machine) : Machine :=
  let m1 := push m (m.regs 31)
  let m2 := { m1 with regs := upd m1.regs 31 m1.sreg }
  let m3 := { m2 with sreg := m2.sreg % 128 }
  let m4 := push m3 (m3.regs 31)
  let m5 := pushSeq m4 saveRegList
  let m6 := { m5 with regs := upd m5.regs 1 0 }
  push m6 (m6.regs 0)

/-- The restoreContext sequence of util.h: pop r0 up to r30; pop r31 and
write it to SREG; pop r31; reti, which sets the interrupt-enable bit
(bit 7) of SREG. -/
def restoreContext (m : Machine) : Machine :=
  let m1 := popSeq m restoreRegList
  let m2 := popReg m1 31
  let m3 := { m2 with sreg := m2.regs 31 }
  let m4 := popReg m3 31
  { m4 with sreg := m4.sreg ||| 128 }

/-- The machine reached by saveContext just before it pushes r30 down to
r1: r31 already pushed, SREG captured into r31 and pushed after the cli,
the interrupt-enable bit cleared. Used to state the decomposition of
saveContext. -/
def saveMid (m : Machine) : Machine :=
  { regs := upd m.regs 31 m.sreg
    sreg := m.sreg % 128
    sp := m.sp - 2
    smem := upd (upd m.smem m.sp (m.regs 31)) (m.sp - 1) m.sreg }

/-! ## Stack regions (defines.h) -/

/-- The stack region of process slot k, as an inclusive address interval
(low, high). -/
def procStackRegion (k : Nat) : Nat × Nat :=
  (PROCESS_STACK_BOTTOM k - STACK_SIZE_PROC + 1, PROCESS_STACK_BOTTOM k)

/-- The ISR stack region as an inclusive address interval. -/
def isrStackRegion : Nat × Nat :=
  (BOTTOM_OF_ISR_STACK - STACK_SIZE_ISR + 1, BOTTOM_OF_ISR_STACK)

/-- The main (boot) stack region as an inclusive address interval. -/
def mainStackRegion : Nat × Nat :=
  (BOTTOM_OF_MAIN_STACK - STACK_SIZE_MAIN + 1, BOTTOM_OF_MAIN_STACK)

/-- Two inclusive address intervals are disjoint. -/
abbrev regionDisjoint (r1 r2 : Nat × Nat) : Prop := r1.2 < r2.1 ∨ r2.2 < r1.1

/-! ## Timer initialization (os_core.c) -/

/-- The timer registers touched by os_init_timer. -/
structure TimerRegs where
  TCCR2A : Nat
  TCCR2B : Nat
  TIMSK2 : Nat
  OCR2A : Nat
  TCCR0B : Nat
  TIMSK0 : Nat

/-- The sbi macro of util.h: set bit b. -/
def sbi (x b : Nat) : Nat := x ||| (1 <<< b)

/-- The cbi macro of util.h on a byte register: clear bit b. -/
def cbi (x b : Nat) : Nat := x &&& (255 ^^^ (1 <<< b))

/-- Bit number WGM21 in TCCR2A, from the AVR io headers. -/
def WGM21 : Nat := 1

/-- Bit number CS20 in TCCR2B, from the AVR io headers. -/
def CS20 : Nat := 0

/-- Bit number CS21 in TCCR2B, from the AVR io headers. -/
def CS21 : Nat := 1

/-- Bit number CS22 in TCCR2B, from the AVR io headers. -/
def CS22 : Nat := 2

/-- Bit number OCIE2A in TIMSK2, from the AVR io headers. -/
def OCIE2A : Nat := 1

/-- Bit number CS00 in TCCR0B, from the AVR io headers. -/
def CS00 : Nat := 0

/-- Bit number CS01 in TCCR0B, from the AVR io headers. -/
def CS01 : Nat := 1

/-- Bit number CS02 in TCCR0B, from the AVR io headers. -/
def CS02 : Nat := 2

/-- Bit number TOIE0 in TIMSK0, from the AVR io headers. -/
def TOIE0 : Nat := 0

/-- os_init_timer from os_core.c lines 89-105, register write by
register write. -/
def os_init_timer (t : TimerRegs) : TimerRegs :=
  let t1 := { t with TCCR2A := sbi t.TCCR2A WGM21 }
  let t2 := { t1 with TCCR2B := sbi t1.TCCR2B CS22 }
  let t3 := { t2 with TCCR2B := sbi t2.TCCR2B CS21 }
  let t4 := { t3 with TCCR2B := sbi t3.TCCR2B CS20 }
  let t5 := { t4 with TIMSK2 := sbi t4.TIMSK2 OCIE2A }
  let t6 := { t5 with OCR2A := 60 }
  let t7 := { t6 with TCCR0B := cbi t6.TCCR0B CS00 }
  let t8 := { t7 with TCCR0B := cbi t7.TCCR0B CS01 }
  let t9 := { t8 with TCCR0B := sbi t8.TCCR0B CS02 }
  { t9 with TIMSK0 := sbi t9.TIMSK0 TOIE0 }

/-- The scheduler tick period in milliseconds produced by os_init_timer
at a 20 MHz clock: prescaler 1024, and in clear-on-compare-match mode
the counter runs through OCR2A + 1 steps per tick. -/
def schedulerTickMs (t : TimerRegs) : ℚ :=
  (1024 * (((os_init_timer t).OCR2A : ℚ) + 1) * 1000) / 20000000

/-! ## Autostart registry (os_process.h, os_process.c) -/

/-- The autostart list, modelled as the list of registered program entry
points with the list head first; os_process.c line 5 initializes the
head to NULL, modelled as the empty list. -/
def autostart_head_init : List Nat := []

/-- One expansion of REGISTER_AUTOSTART (os_process.h lines 91-97): the
constructor sets node.next to autostart_head and autostart_head to the
new node, so it prepends exactly one node. -/
def register_autostart (p : Nat) (head : List Nat) : List Nat := p :: head

/-- Running the autostart constructors for the given programs in
execution order, starting from the initial (empty) list. -/
def run_autostart_constructors (ps : List Nat) : List Nat :=
  ps.foldl (fun head p => register_autostart p head) autostart_head_init

/-! ## os_isRunnable (os_process.c) -/

/-- os_isRunnable from os_process.c lines 13-19; the argument is a
possibly-null pointer to a process record, modelled as an Option. -/
def os_isRunnable : Option Process → Bool
  | none => false
  | some p =>
    p.state == ProcessState.OS_PS_READY || p.state == ProcessState.OS_PS_RUNNING

/-! ## Concrete states used by witnesses and counterexamples -/

/-- A scheduler state whose eight slots are all Unused and whose memory
is zeroed. -/
def cStateEmpty : SchedulerState :=
  { os_processes := fun _ => ⟨ProcessState.OS_PS_UNUSED, 0, 0, 0, 0⟩
    mem := fun _ => 0 }

/-- A scheduler state where slot 0 is Ready with a live stack of two
bytes, 1 and 2, just above the saved stack pointer. -/
def cStateTwoBytes : SchedulerState :=
  { os_processes := fun _ =>
      ⟨ProcessState.OS_PS_READY, 1, 2, PROCESS_STACK_BOTTOM 0 - 2, 0⟩
    mem := fun a =>
      if a = PROCESS_STACK_BOTTOM 0 - 1 then 1
      else if a = PROCESS_STACK_BOTTOM 0 then 2
      else 0 }

/-- A machine whose registers hold pairwise distinct bytes, with the
interrupt-enable bit of SREG set. -/
def cMachineDistinct : Machine :=
  { regs := fun r => r + 10, sreg := 200, sp := 1000, smem := fun _ => 0 }

/-- A machine with all registers zero and SREG zero, in particular with
the interrupt-enable bit clear. -/
def cMachineZeroSreg : Machine :=
  { regs := fun _ => 0, sreg := 0, sp := 100, smem := fun _ => 0 }

/-- A machine with the interrupt-enable bit of SREG set, used to
exercise the context round trip. -/
def cMachineEnabled : Machine :=
  { regs := fun r => 2 * r + 1, sreg := 130, sp := 500, smem := fun _ => 0 }

/-! ## Theorems -/

/-- Helper: folding list prepend starting from any accumulator yields the
reversed list in front of the accumulator. -/
theorem foldl_prepend (ps : List Nat) (acc : List Nat) :
    ps.foldl (fun head p => p :: head) acc = ps.reverse ++ acc := by
  induction ps generalizing acc with
  | nil => simp
  | cons a ps ih => simp [List.foldl_cons, ih]

/-- C9: autostart_head is initially NULL, each REGISTER_AUTOSTART
expansion prepends one node, and after all constructors have run the
list holds the registered programs in reverse order of constructor
execution, most recently registered first. -/
theorem autostart_list_is_reverse (ps : List Nat) :
    autostart_head_init = [] ∧ run_autostart_constructors ps = ps.reverse := by
  refine ⟨rfl, ?_⟩
  simp [run_autostart_constructors, register_autostart, autostart_head_init, foldl_prepend]

/-- C10: os_isRunnable is total at the public interface: on a null
process pointer it returns false without dereferencing it. -/
theorem os_isRunnable_null : os_isRunnable none = false := rfl

/-- C7: os_isRunnable returns true exactly when the process state is
OS_PS_READY or OS_PS_RUNNING. -/
theorem os_isRunnable_iff (p : Process) :
    os_isRunnable (some p) = true ↔
      (p.state = ProcessState.OS_PS_READY ∨ p.state = ProcessState.OS_PS_RUNNING) := by
  obtain ⟨st, pr, pri, sp, ck⟩ := p
  cases st <;> simp [os_isRunnable]

/-- C8: os_init_timer puts timer 2 into clear-on-compare-match mode,
selects the 1024 prescaler by setting CS22, CS21 and CS20, enables the
compare-match interrupt, sets OCR2A to 60, and the resulting tick period
at 20 MHz lies between 3.1 ms and 3.2 ms. -/
theorem os_init_timer_config (t : TimerRegs) :
    Nat.testBit (os_init_timer t).TCCR2A WGM21 = true
    ∧ Nat.testBit (os_init_timer t).TCCR2B CS22 = true
    ∧ Nat.testBit (os_init_timer t).TCCR2B CS21 = true
    ∧ Nat.testBit (os_init_timer t).TCCR2B CS20 = true
    ∧ Nat.testBit (os_init_timer t).TIMSK2 OCIE2A = true
    ∧ (os_init_timer t).OCR2A = 60
    ∧ (31 : ℚ) / 10 ≤ schedulerTickMs t ∧ schedulerTickMs t ≤ (32 : ℚ) / 10 := by
  have hocr : (os_init_timer t).OCR2A = 60 := rfl
  refine ⟨?_, ?_, ?_, ?_, ?_, hocr, ?_, ?_⟩
  · simp +decide [os_init_timer, sbi, WGM21, Nat.testBit_or]
  · simp +decide [os_init_timer, sbi, CS22, Nat.testBit_or]
  · simp +decide [os_init_timer, sbi, CS21, Nat.testBit_or]
  · simp +decide [os_init_timer, sbi, CS20, Nat.testBit_or]
  · simp +decide [os_init_timer, sbi, OCIE2A, Nat.testBit_or]
  · rw [schedulerTickMs, hocr]; norm_num
  · rw [schedulerTickMs, hocr]; norm_num

/-- C6: with 4096 bytes of SRAM, STACK_SIZE_MAIN 32, STACK_SIZE_ISR 192
and 8 processes, STACK_SIZE_PROC is 228 and the eight process stack
regions are pairwise disjoint and disjoint from the ISR and main stack
regions. -/
theorem stack_regions_disjoint :
    STACK_SIZE_PROC = 228
    ∧ (∀ j, j < 8 → ∀ k, k < 8 → j ≠ k →
        regionDisjoint (procStackRegion j) (procStackRegion k))
    ∧ (∀ k, k < 8 → regionDisjoint (procStackRegion k) isrStackRegion)
    ∧ (∀ k, k < 8 → regionDisjoint (procStackRegion k) mainStackRegion) := by
  refine ⟨by decide, ?_, by decide, by decide⟩
  decide

/-- Witness for C6 at concrete slots: slots 0 and 1 are disjoint, and
slot 7 is disjoint from the ISR stack region. -/
theorem stack_regions_disjoint_witness :
    regionDisjoint (procStackRegion 0) (procStackRegion 1)
    ∧ regionDisjoint (procStackRegion 7) isrStackRegion := by
  have h := stack_regions_disjoint
  exact ⟨h.2.1 0 (by decide) 1 (by decide) (by decide), h.2.2.1 7 (by decide)⟩

/-- Helper: the slot scan returns none when every inspected slot is in
use. -/
theorem scanFrom_eq_none (tbl : Nat → Process) (fuel i : Nat)
    (h : ∀ j, j < fuel → (tbl (i + j)).state ≠ ProcessState.OS_PS_UNUSED) :
    scanFrom tbl i fuel = none := by
  induction fuel generalizing i with
  | zero => rfl
  | succ fuel ih =>
    have hi : (tbl i).state ≠ ProcessState.OS_PS_UNUSED := by
      have := h 0 (Nat.succ_pos fuel)
      simpa using this
    simp only [scanFrom, if_neg hi]
    refine ih (i + 1) ?_
    intro j hj
    have := h (j + 1) (by omega)
    simpa [Nat.add_assoc, Nat.add_comm 1 j] using this

/-- Helper: the slot scan returns the smallest offset at which the slot
is Unused. -/
theorem scanFrom_eq_some (tbl : Nat → Process) (fuel i k : Nat)
    (hk : k < fuel)
    (hU : (tbl (i + k)).state = ProcessState.OS_PS_UNUSED)
    (hmin : ∀ j, j < k → (tbl (i + j)).state ≠ ProcessState.OS_PS_UNUSED) :
    scanFrom tbl i fuel = some (i + k) := by
  induction fuel generalizing i k with
  | zero => omega
  | succ fuel ih =>
    cases k with
    | zero =>
      simp only [Nat.add_zero] at hU
      simp [scanFrom, hU]
    | succ m =>
      have hi : (tbl i).state ≠ ProcessState.OS_PS_UNUSED := by
        have := hmin 0 (Nat.succ_pos m)
        simpa using this
      simp only [scanFrom, if_neg hi]
      have hres := ih (i + 1) m (by omega)
        (by simpa [Nat.add_assoc, Nat.add_comm 1 m] using hU)
        (by
          intro j hj
          have := hmin (j + 1) (by omega)
          simpa [Nat.add_assoc, Nat.add_comm 1 j] using this)
      rw [hres]
      congr 1
      omega

/-- C1: os_exec returns INVALID_PROCESS when the program pointer is null
or no slot is Unused; otherwise it returns the smallest pid whose slot
was Unused, that pid is below MAX_NUMBER_OF_PROCESSES, and afterwards
the chosen slot is Ready and holds the program pointer. -/
theorem os_exec_return_value (program priority : Nat) (s : SchedulerState) :
    ((program = 0 ∨ ∀ i, i < MAX_NUMBER_OF_PROCESSES →
        (s.os_processes i).state ≠ ProcessState.OS_PS_UNUSED) →
      (os_exec program priority s).fst = INVALID_PROCESS)
    ∧ (∀ k, program ≠ 0 → k < MAX_NUMBER_OF_PROCESSES →
        (s.os_processes k).state = ProcessState.OS_PS_UNUSED →
        (∀ j, j < k → (s.os_processes j).state ≠ ProcessState.OS_PS_UNUSED) →
        (os_exec program priority s).fst = k
        ∧ (os_exec program priority s).fst < MAX_NUMBER_OF_PROCESSES
        ∧ ((os_exec program priority s).snd.os_processes k).state = ProcessState.OS_PS_READY
        ∧ ((os_exec program priority s).snd.os_processes k).program = program) := by
  constructor
  · rintro (h0 | hfull)
    · simp [os_exec, h0]
    · rcases Decidable.em (program = 0) with h0 | h0
      · simp [os_exec, h0]
      · have hscan : scanFrom s.os_processes 0 MAX_NUMBER_OF_PROCESSES = none := by
          refine scanFrom_eq_none s.os_processes MAX_NUMBER_OF_PROCESSES 0 ?_
          intro j hj
          simpa using hfull j hj
        simp [os_exec, h0, hscan]
  · intro k h0 hk hU hmin
    have hscan : scanFrom s.os_processes 0 MAX_NUMBER_OF_PROCESSES = some k := by
      have := scanFrom_eq_some s.os_processes MAX_NUMBER_OF_PROCESSES 0 k hk
        (by simpa using hU) (by intro j hj; simpa using hmin j hj)
      simpa using this
    refine ⟨?_, ?_, ?_, ?_⟩ <;> simp [os_exec, h0, hscan, upd, hk]

/-- Witness for C1: on an all-Unused table, executing the program at
address 4660 lands in slot 0, which afterwards is Ready and holds the
program pointer. -/
theorem os_exec_return_value_witness :
    (os_exec 4660 2 cStateEmpty).fst = 0
    ∧ ((os_exec 4660 2 cStateEmpty).snd.os_processes 0).state = ProcessState.OS_PS_READY
    ∧ ((os_exec 4660 2 cStateEmpty).snd.os_processes 0).program = 4660 := by
  have h := (os_exec_return_value 4660 2 cStateEmpty).2 0 (by decide) (by decide)
    (by decide) (fun j hj => absurd hj (by omega))
  exact ⟨h.1, h.2.2.1, h.2.2.2⟩

/-- C2: after a successful os_exec on slot k, the saved stack pointer is
PROCESS_STACK_BOTTOM k minus 35, the 33 bytes at sp+1 up to sp+33 are
zero, the byte at sp+34 is the high byte of the entry address, and the
byte at sp+35 is its low byte. -/
theorem os_exec_initial_frame (program priority : Nat) (s : SchedulerState) (k : Nat)
    (h0 : program ≠ 0) (hk : k < MAX_NUMBER_OF_PROCESSES)
    (hU : (s.os_processes k).state = ProcessState.OS_PS_UNUSED)
    (hmin : ∀ j, j < k → (s.os_processes j).state ≠ ProcessState.OS_PS_UNUSED) :
    ((os_exec program priority s).snd.os_processes k).sp = PROCESS_STACK_BOTTOM k - 35
    ∧ (∀ i, 1 ≤ i → i ≤ 33 →
        (os_exec program priority s).snd.mem
          (((os_exec program priority s).snd.os_processes k).sp + i) = 0)
    ∧ (os_exec program priority s).snd.mem
        (((os_exec program priority s).snd.os_processes k).sp + 34) = program / 256 % 256
    ∧ (os_exec program priority s).snd.mem
        (((os_exec program priority s).snd.os_processes k).sp + 35) = program % 256 := by
  have hscan : scanFrom s.os_processes 0 MAX_NUMBER_OF_PROCESSES = some k := by
    have := scanFrom_eq_some s.os_processes MAX_NUMBER_OF_PROCESSES 0 k hk
      (by simpa using hU) (by intro j hj; simpa using hmin j hj)
    simpa using this
  have hbot : PROCESS_STACK_BOTTOM k = 4127 - k * 228 := by
    simp [PROCESS_STACK_BOTTOM, BOTTOM_OF_PROCS_STACK, BOTTOM_OF_ISR_STACK,
      BOTTOM_OF_MAIN_STACK, AVR_SRAM_LAST, RAMEND, STACK_SIZE_MAIN, STACK_SIZE_ISR,
      STACK_SIZE_PROC, AVR_MEMORY_SRAM, AVR_SRAM_END, AVR_SRAM_START, RAMSTART,
      MAX_NUMBER_OF_PROCESSES]
  have hk8 : k < 8 := hk
  have hblow : 2531 ≤ PROCESS_STACK_BOTTOM k := by rw [hbot]; omega
  have hsp : ((os_exec program priority s).snd.os_processes k).sp =
      PROCESS_STACK_BOTTOM k - 35 := by
    simp [os_exec, h0, hscan, upd]
  have hmem : (os_exec program priority s).snd.mem =
      layDownFrame s.mem (PROCESS_STACK_BOTTOM k) program := by
    simp [os_exec, h0, hscan]
  refine ⟨hsp, ?_, ?_, ?_⟩
  · intro i h1 h33
    rw [hsp, hmem]
    simp only [layDownFrame]
    rw [if_neg (by omega), if_neg (by omega), if_pos (by omega)]
  · rw [hsp, hmem]
    simp only [layDownFrame]
    rw [if_neg (by omega), if_pos (by omega)]
  · rw [hsp, hmem]
    simp only [layDownFrame]
    rw [if_pos (by omega)]

/-- Witness for C2: executing the program at address 4660 on an
all-Unused table fills slot 0, whose frame carries high byte 18 at sp+34
and low byte 52 at sp+35, with a zero at sp+1. -/
theorem os_exec_initial_frame_witness :
    ((os_exec 4660 2 cStateEmpty).snd.os_processes 0).sp = PROCESS_STACK_BOTTOM 0 - 35
    ∧ (os_exec 4660 2 cStateEmpty).snd.mem
        (((os_exec 4660 2 cStateEmpty).snd.os_processes 0).sp + 1) = 0
    ∧ (os_exec 4660 2 cStateEmpty).snd.mem
        (((os_exec 4660 2 cStateEmpty).snd.os_processes 0).sp + 34) = 18
    ∧ (os_exec 4660 2 cStateEmpty).snd.mem
        (((os_exec 4660 2 cStateEmpty).snd.os_processes 0).sp + 35) = 52 := by
  have h := os_exec_initial_frame 4660 2 cStateEmpty 0 (by decide) (by decide)
    (by decide) (fun j hj => absurd hj (by omega))
  refine ⟨h.1, h.2.1 1 (by decide) (by decide), ?_, ?_⟩
  · have := h.2.2.1
    norm_num at this
    exact this
  · have := h.2.2.2
    norm_num at this
    exact this

/-- Helper: the checksum loop is the XOR fold over the bytes it visits. -/
theorem checksumLoop_eq_foldl (mem : Nat → Nat) (acc a n : Nat) :
    checksumLoop mem acc a n =
      ((List.range n).map (fun i => mem (a + i))).foldl (fun x b => x ^^^ b % 256) acc := by
  induction n generalizing acc a with
  | zero => rfl
  | succ n ih =>
    rw [checksumLoop, ih]
    rw [List.range_succ_eq_map]
    simp only [List.map_cons, List.map_map, List.foldl_cons, Nat.add_zero]
    have hfun : ((fun i => mem (a + i)) ∘ Nat.succ) = (fun i => mem (a + 1 + i)) := by
      funext i
      show mem (a + Nat.succ i) = mem (a + 1 + i)
      congr 1
      omega
    rw [hfun]

/-- C3 (amended): for every pid with a non-Unused slot,
os_getStackChecksum equals the fold of the bytes from sp+1 up to the
bottom of the stack region of the pid, where the fold XORs each byte
into a running one-byte accumulator, with no rotation between bytes. -/
theorem os_getStackChecksum_xor_fold (s : SchedulerState) (pid : Nat)
    (hpid : pid < MAX_NUMBER_OF_PROCESSES)
    (hstate : (s.os_processes pid).state ≠ ProcessState.OS_PS_UNUSED) :
    os_getStackChecksum s pid =
      xorFold (stackBytes s.mem (s.os_processes pid).sp (PROCESS_STACK_BOTTOM pid)) := by
  rw [os_getStackChecksum, xorFold, stackBytes, checksumLoop_eq_foldl]

/-- Witness for C3 at a concrete state: slot 0 is Ready with live bytes
1 and 2, and the checksum is their XOR fold. -/
theorem os_getStackChecksum_xor_fold_witness :
    0 < MAX_NUMBER_OF_PROCESSES
    ∧ (cStateTwoBytes.os_processes 0).state ≠ ProcessState.OS_PS_UNUSED
    ∧ os_getStackChecksum cStateTwoBytes 0 =
        xorFold (stackBytes cStateTwoBytes.mem (cStateTwoBytes.os_processes 0).sp
          (PROCESS_STACK_BOTTOM 0)) :=
  ⟨by decide, by decide, os_getStackChecksum_xor_fold cStateTwoBytes 0 (by decide) (by decide)⟩

/-- Counterexample for C3 as stated: at a state whose slot 0 is Ready
with live stack bytes 1 and 2, the stack checksum (3, their XOR) is not
the XOR-and-rotate-left fold of those bytes (0). The rotating fold would
also detect the double bit flip that the test task "6 Stack Consistency"
requires to go undetected. -/
theorem os_getStackChecksum_rotate_counterexample :
    (cStateTwoBytes.os_processes 0).state ≠ ProcessState.OS_PS_UNUSED
    ∧ os_getStackChecksum cStateTwoBytes 0 ≠
        rotateFold (stackBytes cStateTwoBytes.mem (cStateTwoBytes.os_processes 0).sp
          (PROCESS_STACK_BOTTOM 0)) := by
  decide

/-- Helper: reading an updated function at the updated point. -/
theorem upd_same {α : Type} (f : Nat → α) (a : Nat) (v : α) : upd f a v a = v := by
  simp [upd]

/-- Helper: reading an updated function elsewhere. -/
theorem upd_other {α : Type} (f : Nat → α) (a x : Nat) (v : α) (h : x ≠ a) :
    upd f a v x = f x := by
  simp [upd, h]

/-- Helper: pushing register values does not change the register file. -/
theorem pushSeq_regs (rs : List Nat) (m : Machine) : (pushSeq m rs).regs = m.regs := by
  induction rs generalizing m with
  | nil => rfl
  | cons r rs ih => simp [pushSeq, push, ih]

/-- Helper: pushing register values does not change the status register. -/
theorem pushSeq_sreg (rs : List Nat) (m : Machine) : (pushSeq m rs).sreg = m.sreg := by
  induction rs generalizing m with
  | nil => rfl
  | cons r rs ih => simp [pushSeq, push, ih]

/-- Helper: a sequence of pushes lowers the stack pointer by its length. -/
theorem pushSeq_sp (rs : List Nat) (m : Machine) : (pushSeq m rs).sp = m.sp - rs.length := by
  induction rs generalizing m with
  | nil => simp [pushSeq]
  | cons r rs ih =>
    simp only [pushSeq]
    rw [ih]
    simp [push]
    omega

/-- Helper: pushes do not touch memory above the stack pointer. -/
theorem pushSeq_smem_above (rs : List Nat) (m : Machine) (a : Nat) (ha : m.sp < a) :
    (pushSeq m rs).smem a = m.smem a := by
  induction rs generalizing m with
  | nil => rfl
  | cons r rs ih =>
    simp only [pushSeq]
    rw [ih (push m (m.regs r)) (by simp [push]; omega)]
    have hne : a ≠ m.sp := by omega
    simp [push, upd, hne]

/-- Helper: the byte left at depth i by a sequence of register pushes is
the value of the i-th register of the list. -/
theorem pushSeq_smem_at (rs : List Nat) (m : Machine) (i : Nat)
    (hi : i < rs.length) (hsp : rs.length ≤ m.sp + 1) :
    (pushSeq m rs).smem (m.sp - i) = m.regs (rs.getD i 0) := by
  induction rs generalizing m i with
  | nil => simp at hi
  | cons r rs ih =>
    cases i with
    | zero =>
      simp only [pushSeq, List.getD_cons_zero, Nat.sub_zero]
      rcases Nat.eq_zero_or_pos rs.length with h0 | hpos
      · have hnil : rs = [] := List.length_eq_zero.mp h0
        subst hnil
        simp [pushSeq, push, upd]
      · have hlt : (push m (m.regs r)).sp < m.sp := by
          simp only [List.length_cons] at hsp
          simp [push]
          omega
        rw [pushSeq_smem_above rs _ _ hlt]
        simp [push, upd]
    | succ j =>
      simp only [pushSeq, List.getD_cons_succ]
      have h1 : m.sp - (j + 1) = (push m (m.regs r)).sp - j := by
        simp [push]
        omega
      rw [h1, ih (push m (m.regs r)) j (by simpa using hi)
        (by simp only [List.length_cons] at hsp; simp [push]; omega)]
      simp [push]

/-- Helper: the register saved at offset j of the r30..r1 block. -/
theorem saveRegList_getD : ∀ j, j < 30 → saveRegList.getD j 0 = 30 - j := by decide

/-- Helper: saveContext decomposes into the captured middle machine
followed by the block pushes, the clearing of r1 and the final push of
r0. -/
theorem saveContext_decomp (m : Machine) :
    saveContext m =
      push { pushSeq (saveMid m) saveRegList with
             regs := upd (pushSeq (saveMid m) saveRegList).regs 1 0 }
        (upd (pushSeq (saveMid m) saveRegList).regs 1 0 0) := by
  show push _ _ = _
  congr 1

/-- Helper: saveContext lowers the stack pointer by 33. -/
theorem saveContext_sp (m : Machine) : (saveContext m).sp = m.sp - 33 := by
  rw [saveContext_decomp]
  show (pushSeq (saveMid m) saveRegList).sp - 1 = m.sp - 33
  rw [pushSeq_sp]
  show (saveMid m).sp - 30 - 1 = m.sp - 33
  rw [show (saveMid m).sp = m.sp - 2 from rfl]
  omega

/-- Helper: after saveContext, r31 holds the captured status byte and r1
is cleared; all other registers are unchanged. -/
theorem saveContext_regs (m : Machine) :
    (saveContext m).regs = upd (upd m.regs 31 m.sreg) 1 0 := by
  simp [saveContext, push, pushSeq_regs]

/-- Helper: saveContext leaves the status register with the
interrupt-enable bit cleared by cli. -/
theorem saveContext_sreg (m : Machine) : (saveContext m).sreg = m.sreg % 128 := by
  simp [saveContext, push, pushSeq_sreg]

/-- Helper: the bytes laid down by saveContext: r31 at the original
stack pointer, the captured status byte below it, r30 down to r1 next,
r0 at depth 32, and all memory above the stack pointer untouched. -/
theorem saveContext_frame (m : Machine) (hsp : 33 ≤ m.sp) :
    (saveContext m).smem m.sp = m.regs 31
    ∧ (saveContext m).smem (m.sp - 1) = m.sreg
    ∧ (∀ j, j < 30 → (saveContext m).smem (m.sp - 2 - j) = m.regs (30 - j))
    ∧ (saveContext m).smem (m.sp - 32) = m.regs 0
    ∧ (∀ a, m.sp < a → (saveContext m).smem a = m.smem a) := by
  have hlen : saveRegList.length = 30 := rfl
  have hmidsp : (saveMid m).sp = m.sp - 2 := rfl
  have hfinsp : (pushSeq (saveMid m) saveRegList).sp = m.sp - 32 := by
    rw [pushSeq_sp, hlen, hmidsp]
    omega
  have hsmem : (saveContext m).smem =
      upd (pushSeq (saveMid m) saveRegList).smem (m.sp - 32)
        (upd (pushSeq (saveMid m) saveRegList).regs 1 0 0) := by
    rw [saveContext_decomp]
    show upd _ (pushSeq (saveMid m) saveRegList).sp _ = _
    rw [hfinsp]
  have hmidmem : (saveMid m).smem =
      upd (upd m.smem m.sp (m.regs 31)) (m.sp - 1) m.sreg := rfl
  refine ⟨?_, ?_, ?_, ?_, ?_⟩
  · rw [hsmem, upd_other _ _ _ _ (by omega),
      pushSeq_smem_above _ _ _ (by rw [hmidsp]; omega), hmidmem,
      upd_other _ _ _ _ (by omega), upd_same]
  · rw [hsmem, upd_other _ _ _ _ (by omega),
      pushSeq_smem_above _ _ _ (by rw [hmidsp]; omega), hmidmem, upd_same]
  · intro j hj
    have haddr : m.sp - 2 - j = (saveMid m).sp - j := by rw [hmidsp]
    rw [hsmem, upd_other _ _ _ _ (by omega), haddr,
      pushSeq_smem_at _ _ j (by rw [hlen]; exact hj) (by rw [hlen, hmidsp]; omega),
      saveRegList_getD j hj]
    show upd m.regs 31 m.sreg (30 - j) = m.regs (30 - j)
    rw [upd_other _ _ _ _ (by omega)]
  · rw [hsmem, upd_same, upd_other _ _ _ _ (by omega), pushSeq_regs]
    show upd m.regs 31 m.sreg 0 = m.regs 0
    rw [upd_other _ _ _ _ (by omega)]
  · intro a ha
    rw [hsmem, upd_other _ _ _ _ (by omega),
      pushSeq_smem_above _ _ _ (by rw [hmidsp]; omega), hmidmem,
      upd_other _ _ _ _ (by omega), upd_other _ _ _ _ (by omega)]

/-- Helper: pops do not touch memory. -/
theorem popSeq_smem (rs : List Nat) (m : Machine) : (popSeq m rs).smem = m.smem := by
  induction rs generalizing m with
  | nil => rfl
  | cons r rs ih => simp [popSeq, popReg, ih]

/-- Helper: a sequence of pops raises the stack pointer by its length. -/
theorem popSeq_sp (rs : List Nat) (m : Machine) : (popSeq m rs).sp = m.sp + rs.length := by
  induction rs generalizing m with
  | nil => simp [popSeq]
  | cons r rs ih =>
    simp only [popSeq]
    rw [ih]
    simp [popReg]
    omega

/-- Helper: a register not named in the pop list is unchanged. -/
theorem popSeq_regs_notin (rs : List Nat) (m : Machine) (r : Nat) (hr : r ∉ rs) :
    (popSeq m rs).regs r = m.regs r := by
  induction rs generalizing m with
  | nil => rfl
  | cons x rs ih =>
    simp only [List.mem_cons, not_or] at hr
    simp only [popSeq]
    rw [ih _ hr.2]
    exact upd_other _ _ _ _ hr.1

/-- Helper: after popping into pairwise distinct registers, the i-th one
holds the byte that lay i+1 above the old stack pointer. -/
theorem popSeq_regs_at (rs : List Nat) (m : Machine) (i : Nat)
    (hi : i < rs.length) (hnd : rs.Nodup) :
    (popSeq m rs).regs (rs.getD i 0) = m.smem (m.sp + 1 + i) := by
  induction rs generalizing m i with
  | nil => simp at hi
  | cons r rs ih =>
    rcases List.nodup_cons.mp hnd with ⟨hr, hnd2⟩
    cases i with
    | zero =>
      simp only [popSeq, List.getD_cons_zero]
      rw [popSeq_regs_notin rs _ r hr]
      rw [show (popReg m r).regs = upd m.regs r (m.smem (m.sp + 1)) from rfl]
      rw [upd_same]
    | succ j =>
      simp only [popSeq, List.getD_cons_succ]
      rw [ih (popReg m r) j (by simpa using hi) hnd2]
      show m.smem (m.sp + 1 + 1 + j) = m.smem (m.sp + 1 + (j + 1))
      congr 1
      omega

/-- Helper: the i-th register popped by restoreContext is register i. -/
theorem restoreRegList_getD : ∀ i, i < 31 → restoreRegList.getD i 0 = i := by decide

/-- Helper: restoreContext decomposes into the block pops followed by
the status pop, the SREG write, the final pop of r31 and the
interrupt-enable effect of reti. -/
theorem restoreContext_decomp (m : Machine) :
    restoreContext m =
      { regs := upd (upd (popSeq m restoreRegList).regs 31
            ((popSeq m restoreRegList).smem ((popSeq m restoreRegList).sp + 1))) 31
            ((popSeq m restoreRegList).smem ((popSeq m restoreRegList).sp + 2))
        sreg := (popSeq m restoreRegList).smem ((popSeq m restoreRegList).sp + 1) ||| 128
        sp := (popSeq m restoreRegList).sp + 2
        smem := (popSeq m restoreRegList).smem } := rfl

/-- Helper: the full effect of restoreContext on an arbitrary machine:
registers r0..r30 receive the bytes 1..31 above the stack pointer, SREG
receives byte 32 with the interrupt-enable bit forced on by reti, r31
receives byte 33, the stack pointer rises by 33, memory is untouched. -/
theorem restoreContext_spec (m : Machine) :
    (restoreContext m).sp = m.sp + 33
    ∧ (∀ r, r < 31 → (restoreContext m).regs r = m.smem (m.sp + 1 + r))
    ∧ (restoreContext m).regs 31 = m.smem (m.sp + 33)
    ∧ (restoreContext m).sreg = m.smem (m.sp + 32) ||| 128
    ∧ (restoreContext m).smem = m.smem := by
  have hlen : restoreRegList.length = 31 := rfl
  have hsp1 : (popSeq m restoreRegList).sp = m.sp + 31 := by
    rw [popSeq_sp, hlen]
  have hm1smem : (popSeq m restoreRegList).smem = m.smem := popSeq_smem _ _
  rw [restoreContext_decomp]
  dsimp only
  refine ⟨?_, ?_, ?_, ?_, ?_⟩
  · rw [hsp1]
  · intro r hr
    rw [upd_other _ _ _ _ (by omega), upd_other _ _ _ _ (by omega)]
    have h := popSeq_regs_at restoreRegList m r (by rw [hlen]; exact hr) (by decide)
    rw [restoreRegList_getD r hr] at h
    exact h
  · rw [upd_same, hm1smem, hsp1]
  · rw [hm1smem, hsp1]
  · exact hm1smem

/-- Helper: forcing a bit that is already set is the identity. -/
theorem or_128_of_testBit (a : Nat) (h : a.testBit 7 = true) : a ||| 128 = a := by
  apply Nat.eq_of_testBit_eq
  intro i
  rw [Nat.testBit_or]
  rcases Decidable.em (i = 7) with h7 | h7
  · subst h7
    simp [h]
  · have h128 : (128 : Nat).testBit i = false := by
      rw [show (128 : Nat) = 2 ^ 7 from rfl]
      exact Nat.testBit_two_pow_of_ne (fun hh => h7 hh.symm)
    simp [h128]

/-- Helper: the save and restore sequences round-trip the registers, the
stack pointer and the memory above it, and leave SREG equal to its old
value with the interrupt-enable bit forced on. -/
theorem roundtrip_frame_spec (m : Machine) (hsp : 33 ≤ m.sp) :
    (∀ r, r < 32 → (restoreContext (saveContext m)).regs r = m.regs r)
    ∧ (restoreContext (saveContext m)).sp = m.sp
    ∧ (restoreContext (saveContext m)).sreg = m.sreg ||| 128
    ∧ (∀ a, m.sp < a → (restoreContext (saveContext m)).smem a = m.smem a) := by
  have hMsp : (saveContext m).sp = m.sp - 33 := saveContext_sp m
  have frame := saveContext_frame m hsp
  have hr := restoreContext_spec (saveContext m)
  refine ⟨?_, ?_, ?_, ?_⟩
  · intro r hr32
    rcases Nat.lt_or_ge r 31 with h31 | h31
    · rw [hr.2.1 r h31]
      rcases Nat.eq_zero_or_pos r with h0 | h1
      · subst h0
        rw [show (saveContext m).sp + 1 + 0 = m.sp - 32 by rw [hMsp]; omega]
        exact frame.2.2.2.1
      · have e1 : (saveContext m).sp + 1 + r = m.sp - 2 - (30 - r) := by
          rw [hMsp]
          omega
        rw [e1, frame.2.2.1 (30 - r) (by omega)]
        congr 1
        omega
    · have h31e : r = 31 := by omega
      subst h31e
      rw [hr.2.2.1, show (saveContext m).sp + 33 = m.sp by rw [hMsp]; omega]
      exact frame.1
  · rw [hr.1, hMsp]
    omega
  · rw [hr.2.2.2.1, show (saveContext m).sp + 32 = m.sp - 1 by rw [hMsp]; omega,
      frame.2.1]
  · intro a ha
    rw [hr.2.2.2.2]
    exact frame.2.2.2.2 a ha

/-- C4 (amended): saveContext pushes 33 bytes in a fixed order: first
register r31, then the status byte captured before the clear-interrupts
instruction (pushed right after cli executes), then r30 down to r1, and
finally r0; it clears r1 after saving it, and leaves SREG with the
interrupt-enable bit cleared. The status byte is pushed once, not
twice. -/
theorem saveContext_layout (m : Machine) (hsp : 33 ≤ m.sp) :
    (saveContext m).sp = m.sp - 33
    ∧ (saveContext m).smem m.sp = m.regs 31
    ∧ (saveContext m).smem (m.sp - 1) = m.sreg
    ∧ (∀ j, j < 30 → (saveContext m).smem (m.sp - 2 - j) = m.regs (30 - j))
    ∧ (saveContext m).smem (m.sp - 32) = m.regs 0
    ∧ (saveContext m).regs 1 = 0
    ∧ (saveContext m).sreg = m.sreg % 128 := by
  have frame := saveContext_frame m hsp
  refine ⟨saveContext_sp m, frame.1, frame.2.1, frame.2.2.1, frame.2.2.2.1, ?_,
    saveContext_sreg m⟩
  rw [saveContext_regs]
  exact upd_same _ _ _

/-- Witness for C4 at a concrete machine with distinct register values:
the stack pointer drops by 33, register r31 lies at the old stack
pointer and the captured status byte right below it. -/
theorem saveContext_layout_witness :
    33 ≤ cMachineDistinct.sp
    ∧ (saveContext cMachineDistinct).sp = cMachineDistinct.sp - 33
    ∧ (saveContext cMachineDistinct).smem cMachineDistinct.sp = cMachineDistinct.regs 31
    ∧ (saveContext cMachineDistinct).smem (cMachineDistinct.sp - 1) =
        cMachineDistinct.sreg := by
  have h := saveContext_layout cMachineDistinct (by decide)
  exact ⟨by decide, h.1, h.2.1, h.2.2.1⟩

/-- Counterexample for C4 as stated: saveContext does not push the
status byte twice. On a machine with stack pointer 1000, register r31
holding 41 and SREG holding 200, the claimed layout would lower the
stack pointer by 34 and leave the original status byte at address 1000;
the code lowers it by 33 and leaves r31 there. -/
theorem saveContext_double_status_counterexample :
    ¬ ((saveContext cMachineDistinct).sp = cMachineDistinct.sp - 34
       ∧ (saveContext cMachineDistinct).smem cMachineDistinct.sp =
            cMachineDistinct.sreg) := by
  decide

/-- C5 (amended): restoring right after saving returns every general
register, the stack pointer and all memory above it to their pre-save
values; the status byte comes back with the interrupt-enable bit forced
on by the return-from-interrupt, so it equals its pre-save value exactly
when that bit was set before the save. -/
theorem restore_save_roundtrip (m : Machine) (hsp : 33 ≤ m.sp) :
    (∀ r, r < 32 → (restoreContext (saveContext m)).regs r = m.regs r)
    ∧ (restoreContext (saveContext m)).sp = m.sp
    ∧ (restoreContext (saveContext m)).sreg = m.sreg ||| 128
    ∧ (Nat.testBit m.sreg 7 = true → (restoreContext (saveContext m)).sreg = m.sreg)
    ∧ (∀ a, m.sp < a → (restoreContext (saveContext m)).smem a = m.smem a) := by
  have h := roundtrip_frame_spec m hsp
  refine ⟨h.1, h.2.1, h.2.2.1, ?_, h.2.2.2⟩
  intro hbit
  rw [h.2.2.1, or_128_of_testBit m.sreg hbit]

/-- Witness for C5 at a concrete machine whose interrupt-enable bit is
set: register r5, the stack pointer and the status byte all return to
their pre-save values. -/
theorem restore_save_roundtrip_witness :
    33 ≤ cMachineEnabled.sp
    ∧ (restoreContext (saveContext cMachineEnabled)).regs 5 = cMachineEnabled.regs 5
    ∧ (restoreContext (saveContext cMachineEnabled)).sp = cMachineEnabled.sp
    ∧ (restoreContext (saveContext cMachineEnabled)).sreg = cMachineEnabled.sreg := by
  have h := restore_save_roundtrip cMachineEnabled (by decide)
  exact ⟨by decide, h.1 5 (by decide), h.2.1, h.2.2.2.1 (by decide)⟩

/-- Counterexample for C5 as stated: on a machine whose SREG is 0 (the
interrupt-enable bit clear), the round trip does not restore the status
byte: reti forces the interrupt-enable bit, so SREG comes back as 128. -/
theorem restore_save_sreg_counterexample :
    (restoreContext (saveContext cMachineZeroSreg)).sreg ≠ cMachineZeroSreg.sreg := by
  decide
